import Mathlib

/-!
Verification development for the contract-intelligence repository's core:
the long-running task manager (`src/core/long_running.py`) and the
clause-aware chunking engine (`src/services/chunking_service.py`).

The Python code is shallowly embedded: mutable manager state becomes an
explicit `MgrState` record threaded through each operation, Python strings
on the chunking side become `List Char` (so that slicing, stripping and
regex-like scanning are fully executable and provable), timestamps become
`Nat` values passed in for each `datetime.now()` call site, and the
executor awaited by `execute_task` is represented by its observable
outcome (normal return / CancelledError / other exception).
-/

/-- Python runtime values, as far as the task manager stores them
(`Any`-typed payloads: `input_data`, `output_data`, `details`,
`checkpoint_data`, `user_input`, pub/sub messages, cache values).
`vNone` is Python's `None`, the default for `output_data`. -/
inductive PyVal where
  | vNone : PyVal
  | vBool : Bool → PyVal
  | vNat : Nat → PyVal
  | vStr : String → PyVal
  | vList : List PyVal → PyVal
  | vDict : List (String × PyVal) → PyVal

/-- `TaskStatus` enum from `long_running.py`. -/
inductive TaskStatus where
  | pending | running | paused | waiting_input | completed | failed | cancelled
deriving DecidableEq

/-- The string value of each `TaskStatus` member. -/
def TaskStatus.value : TaskStatus → String
  | .pending => "pending"
  | .running => "running"
  | .paused => "paused"
  | .waiting_input => "waiting_input"
  | .completed => "completed"
  | .failed => "failed"
  | .cancelled => "cancelled"

/-- `TaskProgress` dataclass. Python ints become `Int`; the float
`percentage` is modelled as an exact rational (the code only ever assigns
it `current_step / total_steps * 100`). -/
structure TaskProgress where
  current_step : Int := 0
  total_steps : Int := 0
  percentage : ℚ := 0
  message : String := ""
  details : PyVal := .vDict []

/-- `LongRunningTask` dataclass. `datetime` fields are modelled as `Nat`
instants (`created_at`/`updated_at` are always set; `started_at` and
`completed_at` start out as `None`). -/
structure LongRunningTask where
  id : String
  name : String
  status : TaskStatus := .pending
  progress : TaskProgress := {}
  input_data : PyVal := .vDict []
  output_data : PyVal := .vNone
  error : Option String := none
  created_at : Nat
  updated_at : Nat
  started_at : Option Nat := none
  completed_at : Option Nat := none
  user_id : Option String := none
  session_id : Option String := none
  pending_input_prompt : Option String := none
  pending_input_schema : Option PyVal := none
  user_input : PyVal := .vNone
  checkpoint_data : PyVal := .vDict []

/-- Render an optional instant the way `to_dict` renders an optional
`isoformat()` timestamp (a string when set, `None` when not). -/
def isoOpt : Option Nat → PyVal
  | none => .vNone
  | some t => .vNat t

/-- Render an optional string as a nullable dict entry. -/
def strOpt : Option String → PyVal
  | none => .vNone
  | some s => .vStr s

/-- `LongRunningTask.to_dict`: the wire representation published on the
task's channel and persisted to the cache. -/
def LongRunningTask.to_dict (t : LongRunningTask) : PyVal :=
  .vDict
    [ ("id", .vStr t.id)
    , ("name", .vStr t.name)
    , ("status", .vStr t.status.value)
    , ("progress", .vDict
        [ ("current_step", .vNat t.progress.current_step.toNat)
        , ("total_steps", .vNat t.progress.total_steps.toNat)
        , ("percentage", .vStr (toString t.progress.percentage))
        , ("message", .vStr t.progress.message) ])
    , ("error", strOpt t.error)
    , ("created_at", .vNat t.created_at)
    , ("updated_at", .vNat t.updated_at)
    , ("started_at", isoOpt t.started_at)
    , ("completed_at", isoOpt t.completed_at)
    , ("pending_input_prompt", strOpt t.pending_input_prompt)
    , ("pending_input_schema", match t.pending_input_schema with
        | none => PyVal.vNone
        | some v => v) ]

/-- The observable outcome of awaiting the executor's asyncio task inside
`execute_task`: a normal return value, `asyncio.CancelledError`, or any
other exception (carrying `str(e)`). -/
inductive ExecResult where
  | normal : PyVal → ExecResult
  | cancelled : ExecResult
  | failed : String → ExecResult

/-- The mutable state owned by a `LongRunningTaskManager` instance,
together with the observable effects on its collaborators:
`published` records every `pubsub.publish(channel, message)` call in
order, `cache` records every `cache.set(key, value, ttl)` call in order,
and `cancel_signals` records every `asyncio.Task.cancel()` issued by
`cancel_task`.  `tasks` is the `id -> task` registry dict, `pause_events`
maps a task id to the state of its `asyncio.Event` (`true` = set), and
`executors` records which ids currently have a registered asyncio task. -/
structure MgrState where
  tasks : String → Option LongRunningTask
  pause_events : String → Option Bool
  executors : String → Bool
  published : List (String × PyVal)
  cache : List (String × PyVal × Nat)
  cancel_signals : List String

/-- The empty manager as built by `LongRunningTaskManager.__init__`. -/
def MgrState.init : MgrState where
  tasks := fun _ => none
  pause_events := fun _ => none
  executors := fun _ => false
  published := []
  cache := []
  cancel_signals := []

/-- Dict store `self.tasks[task_id] = task`. -/
def setTask (m : String → Option LongRunningTask) (k : String)
    (v : LongRunningTask) : String → Option LongRunningTask :=
  fun k' => if k' = k then some v else m k'

/-- `if task_id in self._pause_events: event.set()/event.clear()` —
update the event only when it is present. -/
def setEventIfPresent (m : String → Option Bool) (k : String) (b : Bool) :
    String → Option Bool :=
  fun k' => if k' = k then (m k).map (fun _ => b) else m k'

/-- `self._pause_events[task_id] = asyncio.Event(); ...set()` at creation. -/
def setEvent (m : String → Option Bool) (k : String) (b : Bool) :
    String → Option Bool :=
  fun k' => if k' = k then some b else m k'

/-- `_publish_update`: publish the task's dict on `task:{id}:updates`. -/
def publishUpdate (st : MgrState) (t : LongRunningTask) : MgrState :=
  { st with published :=
      st.published ++ [("task:" ++ t.id ++ ":updates", t.to_dict)] }

/-- `LongRunningTaskManager.create_task`.  The fresh uuid and the
`datetime.now()` reading are passed in (`task_id`, `now`). -/
def create_task (st : MgrState) (task_id : String) (name : String)
    (input_data : Option PyVal) (user_id session_id : Option String)
    (now : Nat) : LongRunningTask × MgrState :=
  let task : LongRunningTask :=
    { id := task_id
    , name := name
    , input_data := match input_data with | some d => d | none => .vDict []
    , user_id := user_id
    , session_id := session_id
    , created_at := now
    , updated_at := now }
  let st1 : MgrState :=
    { st with
      tasks := setTask st.tasks task_id task
    , pause_events := setEvent st.pause_events task_id true
    , cache := st.cache ++ [("task:" ++ task_id, task.to_dict, 86400)] }
  (task, publishUpdate st1 task)

/-- `LongRunningTaskManager.get_task`. -/
def get_task (st : MgrState) (task_id : String) : Option LongRunningTask :=
  st.tasks task_id

/-- The task as mutated by the `execute_task` prologue: status RUNNING,
`started_at` assigned (unconditionally) and `updated_at` refreshed. -/
def execTaskRun (task : LongRunningTask) (t1 t2 : Nat) : LongRunningTask :=
  { task with status := .running, started_at := some t1, updated_at := t2 }

/-- The task as mutated by `execute_task`'s try/except/finally outcome
handling, starting from the prologue state. -/
def execTaskDone (task : LongRunningTask) (res : ExecResult)
    (t1 t2 t3 t4 : Nat) : LongRunningTask :=
  match res with
  | .normal v =>
    { execTaskRun task t1 t2 with output_data := v, status := .completed,
                                  completed_at := some t3, updated_at := t4 }
  | .cancelled => { execTaskRun task t1 t2 with status := .cancelled, updated_at := t4 }
  | .failed msg =>
    { execTaskRun task t1 t2 with status := .failed, error := some msg,
                                  updated_at := t4 }

/-- `LongRunningTaskManager.execute_task`.  Raises `ValueError` on an
unknown id (modelled as `Except.error`).  The four `datetime.now()`
readings are `t1` (line 209, `started_at`), `t2` (line 210), `t3`
(line 227, `completed_at`) and `t4` (line 241, the `finally` block); the
awaited executor outcome is `res`. -/
def execute_task (st : MgrState) (task_id : String) (res : ExecResult)
    (t1 t2 t3 t4 : Nat) : Except String MgrState :=
  match st.tasks task_id with
  | none => .error ("Task not found: " ++ task_id)
  | some task =>
    let taskRun := execTaskRun task t1 t2
    let st1 := publishUpdate
      { st with tasks := setTask st.tasks task_id taskRun } taskRun
    let st2 := { st1 with executors := fun k => if k = task_id then true else st1.executors k }
    let taskDone := execTaskDone task res t1 t2 t3 t4
    let st3 := publishUpdate
      { st2 with tasks := setTask st2.tasks task_id taskDone } taskDone
    .ok { st3 with executors := fun k => if k = task_id then false else st3.executors k }

/-- `LongRunningTaskManager.pause_task`. -/
def pause_task (st : MgrState) (task_id : String) (now : Nat) :
    Bool × MgrState :=
  match st.tasks task_id with
  | none => (false, st)
  | some task =>
    if task.status ≠ .running then (false, st)
    else
      let task' : LongRunningTask := { task with status := .paused, updated_at := now }
      let st1 : MgrState :=
        { st with
          pause_events := setEventIfPresent st.pause_events task_id false
        , tasks := setTask st.tasks task_id task' }
      (true, publishUpdate st1 task')

/-- `LongRunningTaskManager.resume_task`. -/
def resume_task (st : MgrState) (task_id : String) (now : Nat) :
    Bool × MgrState :=
  match st.tasks task_id with
  | none => (false, st)
  | some task =>
    if task.status ≠ .paused then (false, st)
    else
      let task' : LongRunningTask := { task with status := .running, updated_at := now }
      let st1 : MgrState :=
        { st with
          pause_events := setEventIfPresent st.pause_events task_id true
        , tasks := setTask st.tasks task_id task' }
      (true, publishUpdate st1 task')

/-- `LongRunningTaskManager.cancel_task`. -/
def cancel_task (st : MgrState) (task_id : String) (now : Nat) :
    Bool × MgrState :=
  match st.tasks task_id with
  | none => (false, st)
  | some task =>
    if task.status = .completed ∨ task.status = .failed ∨ task.status = .cancelled
    then (false, st)
    else
      let st0 : MgrState :=
        if st.executors task_id
        then { st with cancel_signals := st.cancel_signals ++ [task_id] }
        else st
      let task' : LongRunningTask := { task with status := .cancelled, updated_at := now }
      let st1 : MgrState :=
        { st0 with
          pause_events := setEventIfPresent st0.pause_events task_id true
        , tasks := setTask st0.tasks task_id task' }
      (true, publishUpdate st1 task')

/-- `LongRunningTaskManager.request_input`. -/
def request_input (st : MgrState) (task_id : String) (prompt : String)
    (schema : Option PyVal) (now : Nat) : MgrState :=
  match st.tasks task_id with
  | none => st
  | some task =>
    let task' : LongRunningTask :=
      { task with
        status := .waiting_input
      , pending_input_prompt := some prompt
      , pending_input_schema := schema
      , user_input := .vNone
      , updated_at := now }
    let st1 : MgrState :=
      { st with
        tasks := setTask st.tasks task_id task'
      , pause_events := setEventIfPresent st.pause_events task_id false }
    publishUpdate st1 task'

/-- `LongRunningTaskManager.provide_input`. -/
def provide_input (st : MgrState) (task_id : String) (input_data : PyVal)
    (now : Nat) : Bool × MgrState :=
  match st.tasks task_id with
  | none => (false, st)
  | some task =>
    if task.status ≠ .waiting_input then (false, st)
    else
      let task' : LongRunningTask :=
        { task with
          user_input := input_data
        , pending_input_prompt := none
        , pending_input_schema := none
        , status := .running
        , updated_at := now }
      let st1 : MgrState :=
        { st with
          tasks := setTask st.tasks task_id task'
        , pause_events := setEventIfPresent st.pause_events task_id true }
      (true, publishUpdate st1 task')

/-- `LongRunningTaskManager.update_progress`.  Optional arguments keep
Python's `None`-means-absent convention; the percentage is recomputed
only under `total_steps > 0`. -/
def update_progress (st : MgrState) (task_id : String)
    (current_step total_steps : Option Int) (message : Option String)
    (details : Option PyVal) (now : Nat) : MgrState :=
  match st.tasks task_id with
  | none => st
  | some task =>
    let p0 : TaskProgress := task.progress
    let p1 : TaskProgress := match current_step with
      | some c => { p0 with current_step := c }
      | none => p0
    let p2 : TaskProgress := match total_steps with
      | some ts => { p1 with total_steps := ts }
      | none => p1
    let p3 : TaskProgress := match message with
      | some m => { p2 with message := m }
      | none => p2
    let p4 : TaskProgress := match details with
      | some d => { p3 with details := d }
      | none => p3
    let p5 : TaskProgress :=
      if p4.total_steps > 0
      then { p4 with percentage := (p4.current_step : ℚ) / (p4.total_steps : ℚ) * 100 }
      else p4
    let task' : LongRunningTask := { task with progress := p5, updated_at := now }
    publishUpdate { st with tasks := setTask st.tasks task_id task' } task'

/-- `LongRunningTaskManager.checkpoint`: overwrite the task's
`checkpoint_data` and persist it under `checkpoint:{id}`. -/
def checkpoint (st : MgrState) (task_id : String) (data : PyVal) : MgrState :=
  match st.tasks task_id with
  | none => st
  | some task =>
    let task' : LongRunningTask := { task with checkpoint_data := data }
    { st with
      tasks := setTask st.tasks task_id task'
    , cache := st.cache ++ [("checkpoint:" ++ task_id, data, 86400)] }

/-- `TaskContext.get_checkpoint`: the context holds a reference to the
registry's task object, so reading `self.task.checkpoint_data` observes
the registry entry for the owning task id. -/
def TaskContext.get_checkpoint (st : MgrState) (task_id : String) :
    Option PyVal :=
  (st.tasks task_id).map (fun t => t.checkpoint_data)

/-! ## Chunking engine embedding (`src/services/chunking_service.py`)

Python strings are modelled as `List Char` so that slicing, stripping and
the line-anchored regex scans are executable and inductively provable.
The two `re.MULTILINE` patterns are embedded as explicit backtracking
matchers with Python's leftmost, greedy-then-backtrack semantics. -/

/-- Python string on the chunking side. -/
abbrev Str := List Char

/-- Python `\s` / `str.strip()` whitespace over the ASCII range. -/
def pyIsSpace (c : Char) : Bool :=
  c == ' ' || c == '\t' || c == '\n' || c == '\r' || c == '\x0b' || c == '\x0c'

/-- Python `\d` over the ASCII range. -/
def pyIsDigit (c : Char) : Bool :=
  48 ≤ c.toNat && c.toNat ≤ 57

/-- `str.strip()`. -/
def pyStrip (s : Str) : Str :=
  ((s.dropWhile pyIsSpace).reverse.dropWhile pyIsSpace).reverse

/-- `str.rstrip(".")`. -/
def rstripDot (s : Str) : Str :=
  (s.reverse.dropWhile (fun c => c == '.')).reverse

/-- `str.split(sep)` for a one-character separator (used for `"."`). -/
def splitChar (sep : Char) : Str → List Str
  | [] => [[]]
  | c :: rest =>
    if c = sep then [] :: splitChar sep rest
    else
      match splitChar sep rest with
      | [] => [[c]]
      | h :: t => (c :: h) :: t

/-- `str.split("\n\n")`: cut at each non-overlapping occurrence of a
blank-line separator, scanning left to right. -/
def splitTwoNL : Str → List Str
  | [] => [[]]
  | '\n' :: '\n' :: rest => [] :: splitTwoNL rest
  | c :: rest =>
    match splitTwoNL rest with
    | [] => [[c]]
    | h :: t => (c :: h) :: t

/-- `text[i:i+n]`. -/
def sub (s : Str) (i n : Nat) : Str := (s.drop i).take n

/-- Length of the maximal whitespace run starting at `i`. -/
def wsRun (s : Str) (i : Nat) : Nat := ((s.drop i).takeWhile pyIsSpace).length

/-- Length of the maximal digit run starting at `i`. -/
def digitRunAt (s : Str) (i : Nat) : Nat :=
  ((s.drop i).takeWhile pyIsDigit).length

/-- Is there any character other than `'\n'` at position `i` or later?
This is exactly the condition under which the common pattern tail
`\s*(.+?)(?:\n|$)` can match starting at `i`. -/
def existsNonNL (s : Str) (i : Nat) : Bool :=
  (s.drop i).any (fun c => c != '\n')

/-- Match the shared pattern tail `\s*(.+?)(?:\n|$)` at position `j`:
`\s*` is greedy with backtracking, `(.+?)` is lazy and cannot cross a
newline, and the alternation prefers consuming a terminating `'\n'`.
Returns the text of the lazy group and the end position of the whole
match.  The chosen start of the group is the largest whitespace-run
offset whose character exists and is not a newline. -/
def tailMatch (s : Str) (j : Nat) : Option (Str × Nat) :=
  let w := wsRun s j
  let m? : Option Nat :=
    if j + w < s.length then some w
    else
      match ((s.drop j).take w).reverse.findIdx? (fun c => c != '\n') with
      | some k => some (w - 1 - k)
      | none => none
  m?.map (fun m =>
    let g := (s.drop (j + m)).takeWhile (fun c => c != '\n')
    let e := if j + m + g.length < s.length then j + m + g.length + 1 else s.length
    (g, e))

/-- The greedy parse of `\d+\.(?:\d+\.)*` as a list of digit groups (each
group is the digits of one `\d+\.` repetition, without its dot). -/
def digitGroups : Nat → Str → List Str
  | 0, _ => []
  | fuel + 1, t =>
    let d := t.takeWhile pyIsDigit
    if d = [] then []
    else
      match t.drop d.length with
      | '.' :: rest => d :: digitGroups fuel rest
      | _ => []

/-- Characters consumed by a list of digit-group repetitions (each group
plus its dot). -/
def consumedLen (gs : List Str) : Nat := (gs.map (fun g => g.length + 1)).sum

/-- Join digit groups with `'.'` separators; this is the value of the
regex group `\d+\.(?:\d+\.)*` after `rstrip(".")`. -/
def intercalateDot : List Str → Str
  | [] => []
  | [g] => g
  | g :: gs => g ++ ('.' :: intercalateDot gs)

/-- One match of `CLAUSE_PATTERN`: start offset, the clause number
(`group(1).rstrip(".")`), the stripped body (`group(2).strip()`), and
the end offset of the match. -/
structure ClauseMatch where
  start : Nat
  number : Str
  title : Str
  stop : Nat
deriving DecidableEq, Repr

/-- Attempt `CLAUSE_PATTERN` at position `i` (which the caller has
checked to be a line start).  The repetition `(?:\d+\.)*` is greedy; if
the pattern tail cannot match after the full run the engine gives back
one repetition, after which the tail is at a digit and must succeed. -/
def clauseMatchAt (s : Str) (i : Nat) : Option ClauseMatch :=
  let gs := digitGroups (s.length + 1) (s.drop i)
  if gs = [] then none
  else
    let k := if existsNonNL s (i + consumedLen gs) then gs.length else gs.length - 1
    if k = 0 then none
    else
      let j := i + consumedLen (gs.take k)
      match tailMatch s j with
      | none => none
      | some (g2, e) => some ⟨i, intercalateDot (gs.take k), pyStrip g2, e⟩

/-- `^` in `re.MULTILINE`: position 0 or just after a newline. -/
def lineStart (s : Str) (i : Nat) : Bool :=
  i == 0 || s.get? (i - 1) == some '\n'

/-- `finditer` worker for the clause pattern: scan positions left to
right, emit the leftmost match, continue at its end. -/
def clauseScan (s : Str) : Nat → Nat → List ClauseMatch
  | _, 0 => []
  | p, fuel + 1 =>
    if p ≥ s.length then []
    else if lineStart s p then
      match clauseMatchAt s p with
      | some m => m :: clauseScan s m.stop fuel
      | none => clauseScan s (p + 1) fuel
    else clauseScan s (p + 1) fuel

/-- `CLAUSE_PATTERN.finditer(text)`. -/
def finditerClause (s : Str) : List ClauseMatch := clauseScan s 0 (s.length + 1)

/-- One match of `SECTION_PATTERN`: start offset, `group(1)` (the
section number), `group(2).strip()` (the title), end offset. -/
structure SectionMatch where
  start : Nat
  number : Str
  title : Str
  stop : Nat
deriving DecidableEq, Repr

/-- Case-insensitive comparison of a text prefix with a lowercase
pattern (`re.IGNORECASE` over the ASCII keywords). -/
def matchesCI (t pat : Str) : Bool :=
  ((t.take pat.length).map Char.toLower) == pat

/-- `ARTICLE|SECTION|Part` at position `i` (case-insensitive); returns
the keyword length. -/
def sectionKw (s : Str) (i : Nat) : Option Nat :=
  let t := s.drop i
  if matchesCI t "article".toList then some 7
  else if matchesCI t "section".toList then some 7
  else if matchesCI t "part".toList then some 4
  else none

/-- `[IVX]` under `re.IGNORECASE`. -/
def pyIsIVX (c : Char) : Bool :=
  let l := c.toLower
  l == 'i' || l == 'v' || l == 'x'

/-- Length of the maximal roman-numeral-character run starting at `i`. -/
def ivxRunAt (s : Str) (i : Nat) : Nat := ((s.drop i).takeWhile pyIsIVX).length

/-- Attempt `SECTION_PATTERN` at a line-start position `i`.  `\s+` can
only succeed with its maximal run (shorter runs leave a whitespace
character where `(\d+|[IVX]+)` must match); the number run backtracks by
at most one character, exactly when nothing but newlines follows it; the
optional `[:\.]?` is consumed greedily when the tail still has a
non-newline character to feed on. -/
def sectionMatchAt (s : Str) (i : Nat) : Option SectionMatch :=
  match sectionKw s i with
  | none => none
  | some kwLen =>
    let j0 := i + kwLen
    let w := wsRun s j0
    if w = 0 then none
    else
      let q0 := j0 + w
      let dRun := digitRunAt s q0
      let rRun := ivxRunAt s q0
      let pick : Option Nat :=
        if dRun > 0 then
          if existsNonNL s (q0 + dRun) then some dRun
          else if dRun ≥ 2 then some (dRun - 1) else none
        else if rRun > 0 then
          if existsNonNL s (q0 + rRun) then some rRun
          else if rRun ≥ 2 then some (rRun - 1) else none
        else none
      match pick with
      | none => none
      | some gl =>
        let q1 := q0 + gl
        let q2 :=
          if (s.get? q1 == some ':') || (s.get? q1 == some '.') then
            if existsNonNL s (q1 + 1) then q1 + 1 else q1
          else q1
        match tailMatch s q2 with
        | none => none
        | some (g2, e) => some ⟨i, sub s q0 gl, pyStrip g2, e⟩

/-- `finditer` worker for the section pattern. -/
def sectionScan (s : Str) : Nat → Nat → List SectionMatch
  | _, 0 => []
  | p, fuel + 1 =>
    if p ≥ s.length then []
    else if lineStart s p then
      match sectionMatchAt s p with
      | some m => m :: sectionScan s m.stop fuel
      | none => sectionScan s (p + 1) fuel
    else sectionScan s (p + 1) fuel

/-- `SECTION_PATTERN.finditer(text)`. -/
def finditerSection (s : Str) : List SectionMatch :=
  sectionScan s 0 (s.length + 1)

/-- Kind tag of a structural element (`"section"` / `"clause"` in the
Python tuples). -/
inductive ElemKind where
  | sectionKind
  | clauseKind
deriving DecidableEq, Repr

/-- One entry of the combined, sorted `elements` list:
`(match.start(), kind, number, title)`. -/
structure Element where
  pos : Nat
  kind : ElemKind
  number : Str
  title : Str
deriving DecidableEq, Repr

/-- Stable insertion of an element into a position-sorted list (an
element is placed before the first strictly-later or equal-positioned
one it was inserted above; with the left-to-right build below this
reproduces Python's stable `list.sort(key=...)`). -/
def insertByPos (e : Element) : List Element → List Element
  | [] => [e]
  | f :: fs => if e.pos ≤ f.pos then e :: f :: fs else f :: insertByPos e fs

/-- Stable sort by start position (`elements.sort(key=lambda x: x[0])`). -/
def sortByPos : List Element → List Element
  | [] => []
  | e :: es => insertByPos e (sortByPos es)

/-- The `Chunk` dataclass, with its Python field defaults. -/
structure Chunk where
  text : Str
  document_id : Str
  chunk_index : Nat
  document_name : Str := []
  clause_number : Str := []
  section_title : Str := []
  parent_section : Str := []
  hierarchy_level : Nat := 0
  page_number : Nat := 0
  chunk_type : Str := "text".toList
deriving DecidableEq, Repr

/-- `Chunk.to_dict` (`dataclasses.asdict`): a field-by-field rendering of
the record. -/
def Chunk.to_dict (c : Chunk) : Chunk :=
  { text := c.text
  , document_id := c.document_id
  , chunk_index := c.chunk_index
  , document_name := c.document_name
  , clause_number := c.clause_number
  , section_title := c.section_title
  , parent_section := c.parent_section
  , hierarchy_level := c.hierarchy_level
  , page_number := c.page_number
  , chunk_type := c.chunk_type }

/-- `ChunkingService._get_hierarchy_level`. -/
def getHierarchyLevel (clause_number : Str) : Nat :=
  if clause_number = [] then 0
  else (splitChar '.' (rstripDot clause_number)).length

/-- The three constructor parameters of `ChunkingService`. -/
structure ChunkCfg where
  chunk_size : Nat := 1000
  chunk_overlap : Nat := 200
  min_chunk_size : Nat := 100
deriving DecidableEq, Repr

/-- Python's `s[-k:]` (note: for `k = 0` this is the whole string). -/
def pyTailSlice (k : Nat) (s : Str) : Str :=
  if k = 0 then s else s.drop (s.length - k)

/-- Loop state of `_chunk_by_clauses`: emitted chunks, the running
index, the accumulator and the tracked section/clause context. -/
structure ClauseFold where
  chunks : List Chunk
  chunk_index : Nat
  current_text : Str
  current_clause : Str
  current_section : Str
  current_section_title : Str
deriving DecidableEq, Repr

/-- The flushed chunk built from the accumulator in the section branch
and at the end of the loop (`chunk_type` depends on the tracked clause). -/
def flushChunk (document_id document_name : Str) (st : ClauseFold) : Chunk :=
  { text := pyStrip st.current_text
  , document_id := document_id
  , chunk_index := st.chunk_index
  , document_name := document_name
  , clause_number := st.current_clause
  , section_title := st.current_section_title
  , parent_section := st.current_section
  , hierarchy_level := getHierarchyLevel st.current_clause
  , chunk_type := if st.current_clause ≠ [] then "clause".toList else "text".toList }

/-- The flushed chunk built in the clause branch (`chunk_type="clause"`
unconditionally). -/
def flushClauseChunk (document_id document_name : Str) (st : ClauseFold) : Chunk :=
  { text := pyStrip st.current_text
  , document_id := document_id
  , chunk_index := st.chunk_index
  , document_name := document_name
  , clause_number := st.current_clause
  , section_title := st.current_section_title
  , parent_section := st.current_section
  , hierarchy_level := getHierarchyLevel st.current_clause
  , chunk_type := "clause".toList }

/-- The loop body of `_chunk_by_clauses` for one element whose text span
ends at `endPos`. -/
def stepElem (cfg : ChunkCfg) (document_id document_name : Str) (s : Str)
    (st : ClauseFold) (e : Element) (endPos : Nat) : ClauseFold :=
  let element_text := pyStrip (sub s e.pos (endPos - e.pos))
  match e.kind with
  | .sectionKind =>
    let st1 :=
      if st.current_text ≠ [] then
        { st with
          chunks := st.chunks ++ [flushChunk document_id document_name st]
        , chunk_index := st.chunk_index + 1
        , current_text := [] }
      else st
    { st1 with
      current_section := e.number
    , current_section_title := e.title
    , current_clause := [] }
  | .clauseKind =>
    if st.current_text.length + element_text.length > cfg.chunk_size then
      let st1 :=
        if st.current_text ≠ [] then
          { st with
            chunks := st.chunks ++ [flushClauseChunk document_id document_name st]
          , chunk_index := st.chunk_index + 1 }
        else st
      let overlap_text :=
        if st.current_text ≠ [] then pyTailSlice cfg.chunk_overlap st.current_text
        else []
      { st1 with
        current_text := overlap_text ++ '\n' :: '\n' :: element_text
      , current_clause := e.number }
    else
      { st with
        current_text := st.current_text ++ '\n' :: '\n' :: element_text
      , current_clause := e.number }

/-- The element loop: each element's span runs to the next element's
start (or to the end of the document). -/
def runElems (cfg : ChunkCfg) (document_id document_name : Str) (s : Str) :
    List Element → ClauseFold → ClauseFold
  | [], st => st
  | e :: rest, st =>
    let endPos := match rest with
      | e2 :: _ => e2.pos
      | [] => s.length
    runElems cfg document_id document_name s rest
      (stepElem cfg document_id document_name s st e endPos)

/-- `ChunkingService._chunk_by_clauses`. -/
def chunkByClauses (cfg : ChunkCfg) (s document_id document_name : Str) :
    List Chunk :=
  let clause_matches := finditerClause s
  if clause_matches = [] then []
  else
    let section_matches := finditerSection s
    let elements := sortByPos
      (section_matches.map
          (fun m => ⟨m.start, .sectionKind, m.number, m.title⟩)
        ++ clause_matches.map
          (fun m => ⟨m.start, .clauseKind, m.number, m.title⟩))
    let st := runElems cfg document_id document_name s elements ⟨[], 0, [], [], [], []⟩
    if pyStrip st.current_text ≠ [] then
      st.chunks ++ [flushChunk document_id document_name st]
    else st.chunks

/-- Loop state of `_simple_chunk`. -/
structure SimpleFold where
  chunks : List Chunk
  chunk_index : Nat
  current_text : Str
deriving DecidableEq, Repr

/-- The loop body of `_simple_chunk` for one paragraph. -/
def stepPara (cfg : ChunkCfg) (document_id document_name : Str)
    (st : SimpleFold) (para : Str) : SimpleFold :=
  let p := pyStrip para
  if p = [] then st
  else if st.current_text.length + p.length > cfg.chunk_size then
    let st1 :=
      if st.current_text ≠ [] then
        { st with
          chunks := st.chunks ++
            [{ text := pyStrip st.current_text
             , document_id := document_id
             , chunk_index := st.chunk_index
             , document_name := document_name
             , chunk_type := "text".toList }]
        , chunk_index := st.chunk_index + 1 }
      else st
    let overlap :=
      if st.current_text ≠ [] then pyTailSlice cfg.chunk_overlap st.current_text
      else []
    { st1 with current_text := overlap ++ '\n' :: '\n' :: p }
  else
    { st with
      current_text :=
        if st.current_text ≠ [] then st.current_text ++ '\n' :: '\n' :: p
        else p }

/-- `ChunkingService._simple_chunk`. -/
def simpleChunk (cfg : ChunkCfg) (s document_id document_name : Str) :
    List Chunk :=
  let paragraphs := splitTwoNL s
  let st := paragraphs.foldl (stepPara cfg document_id document_name) ⟨[], 0, []⟩
  if pyStrip st.current_text ≠ [] ∧
      (pyStrip st.current_text).length ≥ cfg.min_chunk_size then
    st.chunks ++
      [{ text := pyStrip st.current_text
       , document_id := document_id
       , chunk_index := st.chunk_index
       , document_name := document_name
       , chunk_type := "text".toList }]
  else st.chunks

/-- `ChunkingService.chunk_text`: clause-aware pass first, simple
fallback when it produced at most one chunk, then `to_dict` on each. -/
def chunkText (cfg : ChunkCfg) (s document_id document_name : Str) :
    List Chunk :=
  let chunks := chunkByClauses cfg s document_id document_name
  let chunks :=
    if chunks.length ≤ 1 then simpleChunk cfg s document_id document_name
    else chunks
  chunks.map Chunk.to_dict

/-! ## Chunk-level well-formedness invariants

`chunkWF` packages the per-chunk facts the claims need: the `"clause"`
type tag is used exactly for chunks carrying a clause number, and the
hierarchy level is always derived from the clause number by
`_get_hierarchy_level`. -/

/-- Per-chunk invariant: type tag iff clause number, and the hierarchy
level is the one computed from the clause number. -/
def chunkWF (c : Chunk) : Prop :=
  (c.chunk_type = "clause".toList ↔ c.clause_number ≠ []) ∧
  c.hierarchy_level = getHierarchyLevel c.clause_number

/-- Invariant of the `_chunk_by_clauses` loop state: the running index
equals the number of emitted chunks, emitted indices are `0..n-1` in
order, every emitted chunk is well-formed, and a non-empty accumulator
implies a non-empty tracked clause number. -/
def foldWF (st : ClauseFold) : Prop :=
  st.chunk_index = st.chunks.length ∧
  st.chunks.map Chunk.chunk_index = List.range st.chunks.length ∧
  (∀ c ∈ st.chunks, chunkWF c) ∧
  (st.current_text ≠ [] → st.current_clause ≠ [])

theorem idx_append (l : List Chunk) (c : Chunk)
    (h : l.map Chunk.chunk_index = List.range l.length)
    (hc : c.chunk_index = l.length) :
    (l ++ [c]).map Chunk.chunk_index = List.range (l ++ [c]).length := by
  simp [List.range_succ, h, hc]

theorem getHierarchyLevel_nil : getHierarchyLevel [] = 0 := by
  simp [getHierarchyLevel]

theorem splitChar_ne_nil (sep : Char) (s : Str) : splitChar sep s ≠ [] := by
  cases s with
  | nil => simp [splitChar]
  | cons c rest =>
    simp only [splitChar]
    split
    · simp
    · split <;> simp

theorem getHierarchyLevel_pos (cn : Str) (h : cn ≠ []) :
    0 < getHierarchyLevel cn := by
  simp only [getHierarchyLevel, if_neg h]
  have := splitChar_ne_nil '.' (rstripDot cn)
  exact List.length_pos.mpr this

theorem flushChunk_wf (d n : Str) (st : ClauseFold) :
    chunkWF (flushChunk d n st) := by
  refine ⟨?_, rfl⟩
  by_cases hc : st.current_clause = []
  · refine iff_of_false ?_ (by simp [flushChunk, hc])
    show (if st.current_clause ≠ [] then "clause".toList else "text".toList) ≠ "clause".toList
    rw [if_neg (by simp [hc])]
    decide
  · refine iff_of_true ?_ (by simpa [flushChunk] using hc)
    show (if st.current_clause ≠ [] then "clause".toList else "text".toList) = "clause".toList
    rw [if_pos hc]

theorem flushClauseChunk_wf (d n : Str) (st : ClauseFold)
    (h : st.current_clause ≠ []) : chunkWF (flushClauseChunk d n st) :=
  ⟨iff_of_true rfl h, rfl⟩

theorem stepElem_wf (cfg : ChunkCfg) (d n s : Str) (st : ClauseFold)
    (e : Element) (p : Nat) (hnum : e.kind = .clauseKind → e.number ≠ [])
    (h : foldWF st) : foldWF (stepElem cfg d n s st e p) := by
  obtain ⟨h1, h2, h3, h4⟩ := h
  obtain ⟨pos, kind, num, title⟩ := e
  cases kind with
  | sectionKind =>
    simp only [stepElem]
    split
    · refine ⟨by simp [h1], idx_append _ _ h2 (by simp [flushChunk, h1]), ?_, by simp⟩
      intro c hc
      rcases List.mem_append.mp hc with hc | hc
      · exact h3 c hc
      · rw [List.mem_singleton.mp hc]
        exact flushChunk_wf d n st
    · exact ⟨h1, h2, h3, by simp_all⟩
  | clauseKind =>
    have hnum' : num ≠ [] := hnum rfl
    simp only [stepElem]
    split
    · split
      · next hct =>
        refine ⟨by simp [h1], idx_append _ _ h2 (by simp [flushClauseChunk, h1]), ?_, fun _ => hnum'⟩
        intro c hc
        rcases List.mem_append.mp hc with hc | hc
        · exact h3 c hc
        · rw [List.mem_singleton.mp hc]
          exact flushClauseChunk_wf d n st (h4 hct)
      · exact ⟨h1, h2, h3, fun _ => hnum'⟩
    · exact ⟨h1, h2, h3, fun _ => hnum'⟩

theorem runElems_wf (cfg : ChunkCfg) (d n s : Str) (es : List Element)
    (st : ClauseFold) (hnum : ∀ e ∈ es, e.kind = .clauseKind → e.number ≠ [])
    (h : foldWF st) : foldWF (runElems cfg d n s es st) := by
  induction es generalizing st with
  | nil => exact h
  | cons e rest ih =>
    simp only [runElems]
    exact ih _ (fun f hf => hnum f (List.mem_cons_of_mem e hf))
      (stepElem_wf cfg d n s st e _ (hnum e (List.mem_cons_self e rest)) h)

theorem digitGroups_mem_ne_nil (fuel : Nat) (t : Str) (g : Str)
    (hg : g ∈ digitGroups fuel t) : g ≠ [] := by
  induction fuel generalizing t with
  | zero => simp [digitGroups] at hg
  | succ fuel ih =>
    simp only [digitGroups] at hg
    split at hg
    · simp at hg
    · next hd =>
      split at hg
      · rcases List.mem_cons.mp hg with hg | hg
        · exact hg ▸ hd
        · exact ih _ hg
      · simp at hg

theorem intercalateDot_cons_ne_nil (g : Str) (l : List Str) (hg : g ≠ []) :
    intercalateDot (g :: l) ≠ [] := by
  cases l with
  | nil => simpa [intercalateDot] using hg
  | cons a l' => simp [intercalateDot]

theorem intercalateDot_take_ne_nil (gs : List Str) (k : Nat) (hk : k ≠ 0)
    (hgs : gs ≠ []) (hall : ∀ g ∈ gs, g ≠ []) :
    intercalateDot (gs.take k) ≠ [] := by
  obtain ⟨g, rest, rfl⟩ := List.exists_cons_of_ne_nil hgs
  cases k with
  | zero => exact absurd rfl hk
  | succ k' =>
    rw [List.take_succ_cons]
    exact intercalateDot_cons_ne_nil g _ (hall g (List.mem_cons_self g rest))

theorem clauseMatchAt_number_ne_nil (s : Str) (i : Nat) (m : ClauseMatch)
    (h : clauseMatchAt s i = some m) : m.number ≠ [] := by
  unfold clauseMatchAt at h
  by_cases h1 : digitGroups (s.length + 1) (s.drop i) = []
  · rw [if_pos h1] at h
    exact absurd h (by simp)
  · rw [if_neg h1] at h
    dsimp only at h
    by_cases h2 : (if existsNonNL s (i + consumedLen (digitGroups (s.length + 1) (s.drop i)))
        then (digitGroups (s.length + 1) (s.drop i)).length
        else (digitGroups (s.length + 1) (s.drop i)).length - 1) = 0
    · rw [if_pos h2] at h
      exact absurd h (by simp)
    · rw [if_neg h2] at h
      cases ht : tailMatch s (i + consumedLen ((digitGroups (s.length + 1) (s.drop i)).take
          (if existsNonNL s (i + consumedLen (digitGroups (s.length + 1) (s.drop i)))
           then (digitGroups (s.length + 1) (s.drop i)).length
           else (digitGroups (s.length + 1) (s.drop i)).length - 1))) with
      | none =>
        rw [ht] at h
        exact absurd h (by simp)
      | some p =>
        obtain ⟨g2, e⟩ := p
        rw [ht] at h
        injection h with h
        rw [← h]
        exact intercalateDot_take_ne_nil _ _ h2 h1
          (fun g hg => digitGroups_mem_ne_nil _ _ g hg)

theorem clauseScan_number_ne_nil (s : Str) (fuel p : Nat) (m : ClauseMatch)
    (hm : m ∈ clauseScan s p fuel) : m.number ≠ [] := by
  induction fuel generalizing p with
  | zero => simp [clauseScan] at hm
  | succ fuel ih =>
    simp only [clauseScan] at hm
    split at hm
    · simp at hm
    · split at hm
      · split at hm
        · next m' hm' =>
          rcases List.mem_cons.mp hm with hm | hm
          · exact hm ▸ clauseMatchAt_number_ne_nil s p m' hm'
          · exact ih _ hm
        · exact ih _ hm
      · exact ih _ hm

theorem finditerClause_number_ne_nil (s : Str) (m : ClauseMatch)
    (hm : m ∈ finditerClause s) : m.number ≠ [] :=
  clauseScan_number_ne_nil s _ _ m hm

theorem mem_insertByPos (a e : Element) (l : List Element) :
    a ∈ insertByPos e l ↔ a = e ∨ a ∈ l := by
  induction l with
  | nil => simp [insertByPos]
  | cons f fs ih =>
    simp only [insertByPos]
    split
    · simp [List.mem_cons]
    · simp only [List.mem_cons, ih]
      tauto

theorem mem_sortByPos (a : Element) (l : List Element) :
    a ∈ sortByPos l ↔ a ∈ l := by
  induction l with
  | nil => simp [sortByPos]
  | cons e es ih =>
    simp only [sortByPos, mem_insertByPos, ih, List.mem_cons]

/-- The final-flush step of `_chunk_by_clauses` preserves index
contiguity and chunk well-formedness. -/
theorem chunksFinal_wf (d n : Str) (st : ClauseFold) (h : foldWF st) :
    (if pyStrip st.current_text ≠ [] then st.chunks ++ [flushChunk d n st]
     else st.chunks).map Chunk.chunk_index =
      List.range (if pyStrip st.current_text ≠ [] then
        st.chunks ++ [flushChunk d n st] else st.chunks).length ∧
    ∀ c ∈ (if pyStrip st.current_text ≠ [] then
        st.chunks ++ [flushChunk d n st] else st.chunks), chunkWF c := by
  obtain ⟨h1, h2, h3, _⟩ := h
  by_cases hf : pyStrip st.current_text ≠ []
  · rw [if_pos hf]
    refine ⟨idx_append _ _ h2 (by simpa [flushChunk] using h1), ?_⟩
    intro c hc
    rcases List.mem_append.mp hc with hc | hc
    · exact h3 c hc
    · rw [List.mem_singleton.mp hc]
      exact flushChunk_wf d n st
  · rw [if_neg hf]
    exact ⟨h2, h3⟩

/-- Every chunk emitted by `_chunk_by_clauses` is well-formed, and its
indices are exactly `0..n-1` in order. -/
theorem chunkByClauses_wf (cfg : ChunkCfg) (s d n : Str) :
    (chunkByClauses cfg s d n).map Chunk.chunk_index =
      List.range (chunkByClauses cfg s d n).length ∧
    ∀ c ∈ chunkByClauses cfg s d n, chunkWF c := by
  unfold chunkByClauses
  by_cases hcm : finditerClause s = []
  · simp [hcm]
  · rw [if_neg hcm]
    have hnum : ∀ e ∈ sortByPos
        ((finditerSection s).map
            (fun m => (⟨m.start, .sectionKind, m.number, m.title⟩ : Element))
          ++ (finditerClause s).map
            (fun m => (⟨m.start, .clauseKind, m.number, m.title⟩ : Element))),
        e.kind = .clauseKind → e.number ≠ [] := by
      intro e he hk
      rcases List.mem_append.mp ((mem_sortByPos e _).mp he) with he | he
      · obtain ⟨m, _, hme⟩ := List.mem_map.mp he
        rw [← hme] at hk
        exact absurd hk (by simp)
      · obtain ⟨m, hm, hme⟩ := List.mem_map.mp he
        rw [← hme]
        exact finditerClause_number_ne_nil s m hm
    exact chunksFinal_wf d n _
      (runElems_wf cfg d n s _ ⟨[], 0, [], [], [], []⟩ hnum ⟨rfl, rfl, by simp, by simp⟩)

/-- Invariant of the `_simple_chunk` loop state. -/
def simpleWF (st : SimpleFold) : Prop :=
  st.chunk_index = st.chunks.length ∧
  st.chunks.map Chunk.chunk_index = List.range st.chunks.length ∧
  ∀ c ∈ st.chunks, chunkWF c

theorem simpleChunk_textWF (d n : Str) (t : Str) (i : Nat) :
    chunkWF { text := t, document_id := d, chunk_index := i, document_name := n,
              chunk_type := "text".toList } := by
  constructor
  · have hne : ("text".toList : Str) ≠ "clause".toList := by decide
    exact iff_of_false hne (by simp)
  · simp [getHierarchyLevel]

theorem stepPara_wf (cfg : ChunkCfg) (d n : Str) (st : SimpleFold) (para : Str)
    (h : simpleWF st) : simpleWF (stepPara cfg d n st para) := by
  obtain ⟨h1, h2, h3⟩ := h
  simp only [stepPara]
  split
  · exact ⟨h1, h2, h3⟩
  · split
    · split
      · refine ⟨by simp [h1], idx_append _ _ h2 (by simpa using h1), ?_⟩
        intro c hc
        rcases List.mem_append.mp hc with hc | hc
        · exact h3 c hc
        · rw [List.mem_singleton.mp hc]
          exact simpleChunk_textWF d n _ _
      · exact ⟨h1, h2, h3⟩
    · exact ⟨h1, h2, h3⟩

theorem foldl_stepPara_wf (cfg : ChunkCfg) (d n : Str) (ps : List Str)
    (st : SimpleFold) (h : simpleWF st) :
    simpleWF (ps.foldl (stepPara cfg d n) st) := by
  induction ps generalizing st with
  | nil => exact h
  | cons p rest ih => exact ih _ (stepPara_wf cfg d n st p h)

/-- The final-flush step of `_simple_chunk` preserves index contiguity
and chunk well-formedness. -/
theorem simpleFinal_wf (cfg : ChunkCfg) (d n : Str) (st : SimpleFold)
    (h : simpleWF st) :
    (if pyStrip st.current_text ≠ [] ∧
        (pyStrip st.current_text).length ≥ cfg.min_chunk_size then
      st.chunks ++ [{ text := pyStrip st.current_text, document_id := d,
                      chunk_index := st.chunk_index, document_name := n,
                      chunk_type := "text".toList }]
     else st.chunks).map Chunk.chunk_index =
      List.range (if pyStrip st.current_text ≠ [] ∧
        (pyStrip st.current_text).length ≥ cfg.min_chunk_size then
      st.chunks ++ [{ text := pyStrip st.current_text, document_id := d,
                      chunk_index := st.chunk_index, document_name := n,
                      chunk_type := "text".toList }]
     else st.chunks).length ∧
    ∀ c ∈ (if pyStrip st.current_text ≠ [] ∧
        (pyStrip st.current_text).length ≥ cfg.min_chunk_size then
      st.chunks ++ [{ text := pyStrip st.current_text, document_id := d,
                      chunk_index := st.chunk_index, document_name := n,
                      chunk_type := "text".toList }]
     else st.chunks), chunkWF c := by
  obtain ⟨h1, h2, h3⟩ := h
  by_cases hf : pyStrip st.current_text ≠ [] ∧
      (pyStrip st.current_text).length ≥ cfg.min_chunk_size
  · rw [if_pos hf]
    refine ⟨idx_append _ _ h2 (by simpa using h1), ?_⟩
    intro c hc
    rcases List.mem_append.mp hc with hc | hc
    · exact h3 c hc
    · rw [List.mem_singleton.mp hc]
      exact simpleChunk_textWF d n _ _
  · rw [if_neg hf]
    exact ⟨h2, h3⟩

/-- Every chunk emitted by `_simple_chunk` is well-formed, with indices
`0..n-1` in order. -/
theorem simpleChunk_wf (cfg : ChunkCfg) (s d n : Str) :
    (simpleChunk cfg s d n).map Chunk.chunk_index =
      List.range (simpleChunk cfg s d n).length ∧
    ∀ c ∈ simpleChunk cfg s d n, chunkWF c := by
  unfold simpleChunk
  exact simpleFinal_wf cfg d n _
    (foldl_stepPara_wf cfg d n (splitTwoNL s) ⟨[], 0, []⟩ ⟨rfl, rfl, by simp⟩)

theorem Chunk.to_dict_eq (c : Chunk) : c.to_dict = c := rfl

theorem map_to_dict (l : List Chunk) : l.map Chunk.to_dict = l := by
  induction l with
  | nil => rfl
  | cons c cs ih => rw [List.map_cons, Chunk.to_dict_eq, ih]

/-- Every chunk returned by `chunk_text` is well-formed, with indices
`0..n-1` in order (on both the structural and the fallback path). -/
theorem chunkText_wf (cfg : ChunkCfg) (s d n : Str) :
    (chunkText cfg s d n).map Chunk.chunk_index =
      List.range (chunkText cfg s d n).length ∧
    ∀ c ∈ chunkText cfg s d n, chunkWF c := by
  unfold chunkText
  dsimp only
  rw [map_to_dict]
  by_cases hb : (chunkByClauses cfg s d n).length ≤ 1
  · rw [if_pos hb]
    exact simpleChunk_wf cfg s d n
  · rw [if_neg hb]
    exact chunkByClauses_wf cfg s d n

/-! ## Claim theorems for the chunking engine -/

/-- A small configuration and document used to instantiate the chunking
claims on concrete data. -/
def sampleCfg : ChunkCfg := ⟨10, 2, 1⟩

/-- A three-clause document whose structural pass emits three chunks. -/
def sampleText : Str := "1. aaaa\n2. bbbb\n3. cccc".toList

/-- The first chunk `chunk_text` emits for `sampleText` under
`sampleCfg`. -/
def sampleChunk0 : Chunk :=
  { text := "1. aaaa".toList
  , document_id := []
  , chunk_index := 0
  , clause_number := "1".toList
  , hierarchy_level := 1
  , chunk_type := "clause".toList }

/-- C8: for every input text, document id and document name (and any
service configuration), the chunk_index values of the chunks returned by
chunk_text are exactly 0, 1, ..., n-1 in emission order — no gaps, no
repeats — on both the structural path and the paragraph-fallback path. -/
theorem chunkText_indices_contiguous (cfg : ChunkCfg) (s d n : Str) :
    (chunkText cfg s d n).map Chunk.chunk_index =
      List.range (chunkText cfg s d n).length :=
  (chunkText_wf cfg s d n).1

/-- C7: for every chunk returned by chunk_text, hierarchy_level is zero
exactly when clause_number is empty, and for a non-empty clause_number it
equals the number of dot-separated groups of the clause number after
stripping trailing dots. -/
theorem chunkText_hierarchy_level (cfg : ChunkCfg) (s d n : Str) (c : Chunk)
    (hc : c ∈ chunkText cfg s d n) :
    (c.hierarchy_level = 0 ↔ c.clause_number = []) ∧
    (c.clause_number ≠ [] →
      c.hierarchy_level = (splitChar '.' (rstripDot c.clause_number)).length) := by
  obtain ⟨-, hwf⟩ := chunkText_wf cfg s d n
  obtain ⟨-, hlvl⟩ := hwf c hc
  refine ⟨⟨?_, ?_⟩, ?_⟩
  · intro h0
    by_contra hne
    have := getHierarchyLevel_pos c.clause_number hne
    omega
  · intro hnil
    rw [hlvl, hnil, getHierarchyLevel_nil]
  · intro hne
    rw [hlvl, getHierarchyLevel, if_neg hne]

/-- Witness for C7: the first chunk of a concrete three-clause document
has clause number "1" and hierarchy level 1. -/
theorem chunkText_hierarchy_level_witness :
    sampleChunk0 ∈ chunkText sampleCfg sampleText [] [] ∧
    ((sampleChunk0.hierarchy_level = 0 ↔ sampleChunk0.clause_number = []) ∧
     (sampleChunk0.clause_number ≠ [] →
       sampleChunk0.hierarchy_level =
         (splitChar '.' (rstripDot sampleChunk0.clause_number)).length)) :=
  ⟨by decide, chunkText_hierarchy_level sampleCfg sampleText [] [] sampleChunk0 (by decide)⟩

/-- C9: every chunk returned by chunk_text is tagged `"clause"` exactly
when its clause number is non-empty; in particular the unconditional
`chunk_type="clause"` flush in the clause branch only ever fires with a
non-empty tracked clause number. -/
theorem chunkText_type_iff_clause (cfg : ChunkCfg) (s d n : Str) (c : Chunk)
    (hc : c ∈ chunkText cfg s d n) :
    c.chunk_type = "clause".toList ↔ c.clause_number ≠ [] :=
  ((chunkText_wf cfg s d n).2 c hc).1

/-- Witness for C9 at a concrete chunk of the sample document. -/
theorem chunkText_type_iff_clause_witness :
    sampleChunk0 ∈ chunkText sampleCfg sampleText [] [] ∧
    (sampleChunk0.chunk_type = "clause".toList ↔ sampleChunk0.clause_number ≠ []) :=
  ⟨by decide, chunkText_type_iff_clause sampleCfg sampleText [] [] sampleChunk0 (by decide)⟩

/-- C5 counterexample: on `"1. Short clause"` the structural scan finds
one clause marker (so by the claim the structural result should be
returned), yet `chunk_text` discards the single structural chunk and
returns the paragraph-fallback result instead: the fallback fires
whenever the structural pass produced at most one chunk, not only when
zero clause markers were found. -/
theorem chunkText_fallback_counterexample :
    finditerClause "1. Short clause".toList ≠ [] ∧
    chunkText ⟨1000, 200, 10⟩ "1. Short clause".toList [] [] ≠
      (chunkByClauses ⟨1000, 200, 10⟩ "1. Short clause".toList [] []).map
        Chunk.to_dict := by
  decide

/-- C5 amended: chunk_text falls back to the simple paragraph-based
chunker exactly when the structural pass yields at most one chunk —
including a marker-bearing text whose structural pass produced a single
chunk — and returns the structural result exactly when that pass emits
two or more chunks; zero clause markers make the structural pass yield
no chunks at all, so they always force the fallback. -/
theorem chunkText_fallback (cfg : ChunkCfg) (s d n : Str) :
    (finditerClause s = [] →
      chunkByClauses cfg s d n = [] ∧
      chunkText cfg s d n = (simpleChunk cfg s d n).map Chunk.to_dict) ∧
    ((chunkByClauses cfg s d n).length ≤ 1 →
      chunkText cfg s d n = (simpleChunk cfg s d n).map Chunk.to_dict) ∧
    (2 ≤ (chunkByClauses cfg s d n).length →
      chunkText cfg s d n = (chunkByClauses cfg s d n).map Chunk.to_dict) := by
  have hfb : (chunkByClauses cfg s d n).length ≤ 1 →
      chunkText cfg s d n = (simpleChunk cfg s d n).map Chunk.to_dict := by
    intro h1
    unfold chunkText
    dsimp only
    rw [if_pos h1]
  refine ⟨?_, hfb, ?_⟩
  · intro h
    have hempty : chunkByClauses cfg s d n = [] := by
      unfold chunkByClauses
      rw [if_pos h]
    exact ⟨hempty, hfb (by rw [hempty]; simp)⟩
  · intro h2
    unfold chunkText
    dsimp only
    rw [if_neg (by omega)]

/-- Witness for C5: a marker-bearing document whose structural pass
yields exactly one chunk still takes the fallback path; a document with
no clause markers has an empty structural pass and takes the fallback
path; and the three-chunk sample document takes the structural path. -/
theorem chunkText_fallback_witness :
    ((chunkByClauses ⟨1000, 200, 10⟩ "1. Short clause".toList [] []).length = 1 ∧
      chunkText ⟨1000, 200, 10⟩ "1. Short clause".toList [] [] =
        (simpleChunk ⟨1000, 200, 10⟩ "1. Short clause".toList [] []).map
          Chunk.to_dict) ∧
    (chunkByClauses sampleCfg "plain text".toList [] [] = [] ∧
      chunkText sampleCfg "plain text".toList [] [] =
        (simpleChunk sampleCfg "plain text".toList [] []).map Chunk.to_dict) ∧
    chunkText sampleCfg sampleText [] [] =
      (chunkByClauses sampleCfg sampleText [] []).map Chunk.to_dict :=
  ⟨⟨by decide,
    (chunkText_fallback ⟨1000, 200, 10⟩ "1. Short clause".toList [] []).2.1
      (by decide)⟩,
   (chunkText_fallback sampleCfg "plain text".toList [] []).1 (by decide),
   (chunkText_fallback sampleCfg sampleText [] []).2.2 (by decide)⟩

/-! ## Claim theorems for the task manager -/

theorem publishUpdate_tasks (st : MgrState) (t : LongRunningTask) :
    (publishUpdate st t).tasks = st.tasks := rfl

theorem setTask_self (m : String → Option LongRunningTask) (k : String)
    (v : LongRunningTask) : setTask m k v k = some v := by
  simp [setTask]

/-- Python's `None` test on a stored payload. -/
def pyIsNone : PyVal → Bool
  | .vNone => true
  | _ => false

/-- A freshly created task (status PENDING, no output, no error), as
`create_task` builds it. -/
def baseTask : LongRunningTask :=
  { id := "t", name := "analysis", created_at := 1, updated_at := 1 }

/-- A single-task manager state holding `task` under id `"t"` with its
pause event set, as after `create_task`. -/
def oneTaskState (task : LongRunningTask) : MgrState :=
  { tasks := fun k => if k = "t" then some task else none
  , pause_events := fun k => if k = "t" then some true else none
  , executors := fun _ => false
  , published := []
  , cache := []
  , cancel_signals := [] }

theorem oneTaskState_lookup (task : LongRunningTask) :
    (oneTaskState task).tasks "t" = some task := by
  simp [oneTaskState]

/-- C1 counterexample: a task whose `started_at` is already `5` (e.g.
set by a first `execute_task` before a pause) is executed again at time
`9`; the claim says the original `started_at` is kept, but `execute_task`
overwrites it to `9`. -/
theorem execute_task_started_at_cex :
    ((execute_task
        (oneTaskState { baseTask with status := .paused, started_at := some 5 })
        "t" (.normal .vNone) 9 9 9 9).toOption.bind
      (fun st => st.tasks "t")).map LongRunningTask.started_at = some (some 9) ∧
    (some (9 : Nat) : Option Nat) ≠ some 5 := by
  constructor
  · rfl
  · simp

/-- C1 amended: `execute_task` assigns `started_at := now` on every call
for an existing task, unconditionally — a prior value is overwritten, not
preserved. -/
theorem execute_task_sets_started_at (st : MgrState) (tid : String)
    (task : LongRunningTask) (res : ExecResult) (t1 t2 t3 t4 : Nat)
    (h : st.tasks tid = some task) :
    ((execute_task st tid res t1 t2 t3 t4).toOption.bind
      (fun st' => st'.tasks tid)).map LongRunningTask.started_at = some (some t1) := by
  unfold execute_task
  rw [h]
  cases res <;>
    simp [Except.toOption, setTask, publishUpdate, execTaskDone, execTaskRun]

/-- Witness for C1: a concrete paused task with `started_at = 5` is
re-executed at time `3`; afterwards `started_at = 3`. -/
theorem execute_task_sets_started_at_witness :
    ((execute_task
        (oneTaskState { baseTask with status := .paused, started_at := some 5 })
        "t" .cancelled 3 4 5 6).toOption.bind
      (fun st => st.tasks "t")).map LongRunningTask.started_at = some (some 3) :=
  execute_task_sets_started_at _ "t" _ .cancelled 3 4 5 6 (oneTaskState_lookup _)

/-- C2 counterexample: a task whose progress is 1/4 (percentage 25) gets
`update_progress(total_steps=0)`; the claim says the percentage must
become 0, but the code skips the recomputation when `total_steps <= 0`
and the stale 25 remains. -/
theorem update_progress_zero_total_cex :
    (((update_progress
        (oneTaskState { baseTask with status := .running, progress := { current_step := 1, total_steps := 4, percentage := 25, message := "step1" } })
        "t" none (some 0) none none 7).tasks "t").map
      (fun t => (t.progress.total_steps, t.progress.percentage))) = some (0, 25) ∧
    (25 : ℚ) ≠ 0 := by
  refine ⟨?_, by norm_num⟩
  simp [update_progress, oneTaskState, setTask, publishUpdate]

/-- C2 amended: after `update_progress` on a registered task the
percentage equals `current_step/total_steps*100` whenever the resulting
`total_steps` is positive, but when the resulting `total_steps` is zero
(or negative) the percentage keeps its previous value rather than being
reset to 0. -/
theorem update_progress_percentage (st : MgrState) (tid : String)
    (task : LongRunningTask) (cs ts : Option Int) (msg : Option String)
    (det : Option PyVal) (now : Nat) (h : st.tasks tid = some task) :
    ((update_progress st tid cs ts msg det now).tasks tid).map
        (fun t => t.progress.current_step) = some (cs.getD task.progress.current_step) ∧
    ((update_progress st tid cs ts msg det now).tasks tid).map
        (fun t => t.progress.total_steps) = some (ts.getD task.progress.total_steps) ∧
    (0 < ts.getD task.progress.total_steps →
      ((update_progress st tid cs ts msg det now).tasks tid).map
        (fun t => t.progress.percentage) =
        some ((cs.getD task.progress.current_step : ℚ) /
          (ts.getD task.progress.total_steps : ℚ) * 100)) ∧
    (ts.getD task.progress.total_steps ≤ 0 →
      ((update_progress st tid cs ts msg det now).tasks tid).map
        (fun t => t.progress.percentage) = some task.progress.percentage) := by
  unfold update_progress
  rw [h]
  cases cs <;> cases ts <;> cases msg <;> cases det <;> dsimp only <;>
    split_ifs with hT <;>
    refine ⟨by simp [publishUpdate, setTask], by simp [publishUpdate, setTask], ?_, ?_⟩ <;>
    (intro hcond
     simp only [Option.getD_some, Option.getD_none] at hcond
     first
     | exact absurd hcond (by omega)
     | simp [publishUpdate, setTask])

/-- Witness for C2: `update_progress(current_step=1, total_steps=4)` on
a concrete running task yields percentage 25. -/
theorem update_progress_percentage_witness :
    ((update_progress (oneTaskState { baseTask with status := .running }) "t"
        (some 1) (some 4) (some "step1") none 9).tasks "t").map
      (fun t => t.progress.percentage) = some 25 := by
  have h := update_progress_percentage
    (oneTaskState { baseTask with status := .running }) "t" _
    (some 1) (some 4) (some "step1") none 9 (oneTaskState_lookup _)
  have h3 := h.2.2.1 (by norm_num)
  rw [h3]
  norm_num

/-- The transition edges of the spec's state-machine diagram (§4.1),
written from the spec's words rather than from the code, for comparing
the code's transitions against the diagram. -/
def specStateDiagramEdges : List (TaskStatus × TaskStatus) :=
  [ (.pending, .running)
  , (.running, .paused), (.running, .waiting_input), (.running, .completed)
  , (.running, .failed), (.running, .cancelled)
  , (.paused, .running), (.waiting_input, .running), (.paused, .cancelled) ]

/-- Membership in the spec's state diagram. -/
def specStateDiagramEdge (a b : TaskStatus) : Prop :=
  (a, b) ∈ specStateDiagramEdges

/-- C3 counterexample: `cancel_task` on a PENDING task succeeds and
moves it straight to CANCELLED — an edge the spec's diagram does not
contain. -/
theorem cancel_pending_cex :
    (cancel_task (oneTaskState baseTask) "t" 5).1 = true ∧
    ((cancel_task (oneTaskState baseTask) "t" 5).2.tasks "t").map
      LongRunningTask.status = some .cancelled ∧
    baseTask.status = .pending ∧
    ¬ specStateDiagramEdge .pending .cancelled := by
  refine ⟨?_, ?_, rfl, by simp [specStateDiagramEdge, specStateDiagramEdges]⟩
  · simp [cancel_task, oneTaskState, baseTask, publishUpdate, setTask]
  · simp [cancel_task, oneTaskState, baseTask, publishUpdate, setTask]

/-- C3 amended: pause_task, resume_task and provide_input guard their
transitions exactly as the diagram says (RUNNING→PAUSED, PAUSED→RUNNING,
WAITING_INPUT→RUNNING, and return false otherwise, leaving the status
unchanged); but cancel_task moves ANY non-terminal task — including
PENDING and WAITING_INPUT — to CANCELLED, request_input moves any
registered task to WAITING_INPUT regardless of its current status, and
execute_task forces RUNNING and then a terminal status regardless of the
prior status. -/
theorem manager_status_transitions (st : MgrState) (tid : String)
    (task : LongRunningTask) (input : PyVal) (prompt : String)
    (schema : Option PyVal) (res : ExecResult) (now t1 t2 t3 t4 : Nat)
    (h : st.tasks tid = some task) :
    (((pause_task st tid now).2.tasks tid).map LongRunningTask.status =
        some (if task.status = .running then .paused else task.status) ∧
      ((pause_task st tid now).1 = true ↔ task.status = .running)) ∧
    (((resume_task st tid now).2.tasks tid).map LongRunningTask.status =
        some (if task.status = .paused then .running else task.status) ∧
      ((resume_task st tid now).1 = true ↔ task.status = .paused)) ∧
    (((provide_input st tid input now).2.tasks tid).map LongRunningTask.status =
        some (if task.status = .waiting_input then .running else task.status) ∧
      ((provide_input st tid input now).1 = true ↔ task.status = .waiting_input)) ∧
    (((cancel_task st tid now).2.tasks tid).map LongRunningTask.status =
        some (if task.status = .completed ∨ task.status = .failed ∨
            task.status = .cancelled then task.status else .cancelled) ∧
      ((cancel_task st tid now).1 = true ↔
        ¬(task.status = .completed ∨ task.status = .failed ∨
          task.status = .cancelled))) ∧
    (((request_input st tid prompt schema now).tasks tid).map
        LongRunningTask.status = some .waiting_input) ∧
    (((execute_task st tid res t1 t2 t3 t4).toOption.bind
        (fun s2 => s2.tasks tid)).map LongRunningTask.status =
      some (match res with
        | .normal _ => .completed
        | .cancelled => .cancelled
        | .failed _ => .failed)) := by
  refine ⟨⟨?_, ?_⟩, ⟨?_, ?_⟩, ⟨?_, ?_⟩, ⟨?_, ?_⟩, ?_, ?_⟩
  · by_cases hs : task.status = .running <;>
      simp [pause_task, h, hs, publishUpdate, setTask]
  · by_cases hs : task.status = .running <;>
      simp [pause_task, h, hs, publishUpdate, setTask]
  · by_cases hs : task.status = .paused <;>
      simp [resume_task, h, hs, publishUpdate, setTask]
  · by_cases hs : task.status = .paused <;>
      simp [resume_task, h, hs, publishUpdate, setTask]
  · by_cases hs : task.status = .waiting_input <;>
      simp [provide_input, h, hs, publishUpdate, setTask]
  · by_cases hs : task.status = .waiting_input <;>
      simp [provide_input, h, hs, publishUpdate, setTask]
  · by_cases hs : task.status = .completed ∨ task.status = .failed ∨
        task.status = .cancelled <;>
      simp [cancel_task, h, hs, publishUpdate, setTask]
  · by_cases hs : task.status = .completed ∨ task.status = .failed ∨
        task.status = .cancelled <;>
      simp [cancel_task, h, hs, publishUpdate, setTask]
  · simp [request_input, h, publishUpdate, setTask]
  · cases res <;>
      simp [execute_task, h, Except.toOption, publishUpdate, setTask,
        execTaskDone, execTaskRun]

/-- Witness for C3: on a concrete RUNNING task, pause yields PAUSED,
request_input yields WAITING_INPUT, and a failing execution ends FAILED. -/
theorem manager_status_transitions_witness :
    ((pause_task (oneTaskState { baseTask with status := .running }) "t" 5).2.tasks
        "t").map LongRunningTask.status = some .paused ∧
    ((request_input (oneTaskState { baseTask with status := .running }) "t" "pick"
        none 5).tasks "t").map LongRunningTask.status = some .waiting_input ∧
    ((execute_task (oneTaskState { baseTask with status := .running }) "t"
        (.failed "boom") 1 2 3 4).toOption.bind
      (fun s2 => s2.tasks "t")).map LongRunningTask.status = some .failed := by
  have h := manager_status_transitions
    (oneTaskState { baseTask with status := .running }) "t" _
    .vNone "pick" none (.failed "boom") 5 1 2 3 4 (oneTaskState_lookup _)
  exact ⟨by simpa using h.1.1, h.2.2.2.2.1, h.2.2.2.2.2⟩

/-- C4 counterexample: executing a fresh task whose executor is
cancelled ends with status CANCELLED while BOTH `output_data` and
`error` are unset — zero of the two, not exactly one. -/
theorem terminal_exactly_one_cex :
    (match execute_task (oneTaskState { baseTask with status := .running }) "t"
        .cancelled 2 2 2 3 with
     | .ok st' => (st'.tasks "t").map
        (fun t => (t.status, pyIsNone t.output_data, t.error.isNone))
     | .error _ => none) = some (.cancelled, true, true) := by
  simp [execute_task, oneTaskState, publishUpdate, setTask, execTaskDone,
    execTaskRun, baseTask, pyIsNone]

/-- C4 amended: for a task with no output and no error recorded (as
freshly created), one execute_task call leaves — COMPLETED: error unset,
output the executor's return value (so it is unset exactly when the
executor returned None); FAILED: error set and output unset; CANCELLED:
neither output nor error set.  `cancel_task` likewise records neither. -/
theorem terminal_output_error (st : MgrState) (tid : String)
    (task : LongRunningTask) (res : ExecResult) (t1 t2 t3 t4 now : Nat)
    (h : st.tasks tid = some task) (hout : task.output_data = .vNone)
    (herr : task.error = none) :
    ((execute_task st tid res t1 t2 t3 t4).toOption.bind
        (fun s2 => s2.tasks tid)).map
      (fun t => (t.status, t.output_data, t.error)) =
      some (match res with
        | .normal v => (.completed, v, none)
        | .cancelled => (.cancelled, .vNone, none)
        | .failed msg => (.failed, .vNone, some msg)) ∧
    ((cancel_task st tid now).2.tasks tid).map
        (fun t => (t.output_data, t.error)) = some (.vNone, none) := by
  constructor
  · cases res <;>
      simp [execute_task, h, hout, herr, Except.toOption, publishUpdate,
        setTask, execTaskDone, execTaskRun]
  · by_cases hs : task.status = .completed ∨ task.status = .failed ∨
        task.status = .cancelled <;>
      simp [cancel_task, h, hs, hout, herr, publishUpdate, setTask]

/-- Witness for C4: a fresh running task whose executor raises ends
FAILED with the message as error and no output, and cancelling a fresh
task records neither output nor error. -/
theorem terminal_output_error_witness :
    ((execute_task (oneTaskState { baseTask with status := .running }) "t"
        (.failed "x") 1 2 3 4).toOption.bind
      (fun s2 => s2.tasks "t")).map
        (fun t => (t.status, t.output_data, t.error)) =
      some (.failed, .vNone, some "x") ∧
    ((cancel_task (oneTaskState { baseTask with status := .running }) "t" 9).2.tasks
        "t").map (fun t => (t.output_data, t.error)) = some (.vNone, none) := by
  have h := terminal_output_error (oneTaskState { baseTask with status := .running })
    "t" _ (.failed "x") 1 2 3 4 9 (oneTaskState_lookup _) rfl rfl
  exact ⟨h.1, h.2⟩

/-- C6: for any registered task, execute_task returns `.ok` for all
three executor outcomes (an executor failure never escapes to the
caller); the final task is `execTaskDone`: on normal return status
COMPLETED with the return value stored as output, on cancellation
CANCELLED with no error recorded, on any other failure FAILED with the
message as error; in all three cases `updated_at` is refreshed to the
final instant and exactly one update is published at the end (after the
single RUNNING publish of the prologue). -/
theorem execute_task_outcomes (st : MgrState) (tid : String)
    (task : LongRunningTask) (res : ExecResult) (t1 t2 t3 t4 : Nat)
    (h : st.tasks tid = some task) :
    ((execute_task st tid res t1 t2 t3 t4).toOption.bind
      (fun s2 => s2.tasks tid)) = some (execTaskDone task res t1 t2 t3 t4) ∧
    (execute_task st tid res t1 t2 t3 t4).toOption.map MgrState.published =
      some (st.published ++
        [("task:" ++ task.id ++ ":updates", (execTaskRun task t1 t2).to_dict),
         ("task:" ++ task.id ++ ":updates",
          (execTaskDone task res t1 t2 t3 t4).to_dict)]) ∧
    (execTaskDone task res t1 t2 t3 t4).updated_at = t4 ∧
    ((execTaskDone task res t1 t2 t3 t4).status,
     (execTaskDone task res t1 t2 t3 t4).output_data,
     (execTaskDone task res t1 t2 t3 t4).error,
     (execTaskDone task res t1 t2 t3 t4).completed_at) =
      (match res with
        | .normal v => (.completed, v, task.error, some t3)
        | .cancelled => (.cancelled, task.output_data, task.error, task.completed_at)
        | .failed msg => (.failed, task.output_data, some msg, task.completed_at)) := by
  refine ⟨?_, ?_, ?_, ?_⟩
  · cases res <;>
      simp [execute_task, h, Except.toOption, publishUpdate, setTask]
  · cases res <;>
      simp [execute_task, h, Except.toOption, publishUpdate, setTask,
        execTaskRun, execTaskDone]
  · cases res <;> simp [execTaskDone, execTaskRun]
  · cases res <;> simp [execTaskDone, execTaskRun]

/-- Witness for C6 at a concrete successful execution. -/
theorem execute_task_outcomes_witness :
    ((execute_task (oneTaskState { baseTask with status := .running }) "t"
        (.normal (.vStr "ok")) 1 2 3 4).toOption.bind
      (fun s2 => s2.tasks "t")) =
      some (execTaskDone { baseTask with status := .running }
        (.normal (.vStr "ok")) 1 2 3 4) ∧
    ((execTaskDone { baseTask with status := .running }
        (.normal (.vStr "ok")) 1 2 3 4).status,
     (execTaskDone { baseTask with status := .running }
        (.normal (.vStr "ok")) 1 2 3 4).output_data,
     (execTaskDone { baseTask with status := .running }
        (.normal (.vStr "ok")) 1 2 3 4).error,
     (execTaskDone { baseTask with status := .running }
        (.normal (.vStr "ok")) 1 2 3 4).completed_at) =
      (.completed, .vStr "ok", none, some 3) := by
  have h := execute_task_outcomes (oneTaskState { baseTask with status := .running })
    "t" _ (.normal (.vStr "ok")) 1 2 3 4 (oneTaskState_lookup _)
  exact ⟨h.1, h.2.2.2⟩

/-- C10: `checkpoint(task_id, d)` replaces the task's entire
`checkpoint_data` with `d` (overwriting any previous checkpoint), after
which `TaskContext.get_checkpoint` on that task returns exactly `d`; for
an unknown task id the whole manager state is left unchanged. -/
theorem checkpoint_get_checkpoint (st : MgrState) (tid : String) (d : PyVal) :
    ((st.tasks tid).isSome = true →
      TaskContext.get_checkpoint (checkpoint st tid d) tid = some d) ∧
    (st.tasks tid = none → checkpoint st tid d = st) := by
  constructor
  · intro h
    obtain ⟨task, ht⟩ := Option.isSome_iff_exists.mp h
    simp [checkpoint, ht, TaskContext.get_checkpoint, setTask]
  · intro h
    simp [checkpoint, h]

/-- Witness for C10: a concrete checkpoint overwrites a previous one and
is read back verbatim; a checkpoint against an unknown id is a no-op. -/
theorem checkpoint_get_checkpoint_witness :
    TaskContext.get_checkpoint
      (checkpoint (oneTaskState { baseTask with checkpoint_data := .vDict [("old", .vNat 1)] })
        "t" (.vDict [("step", .vNat 2)])) "t" =
      some (.vDict [("step", .vNat 2)]) ∧
    checkpoint (oneTaskState baseTask) "missing" (.vNat 3) =
      oneTaskState baseTask :=
  ⟨(checkpoint_get_checkpoint _ "t" _).1 (by simp [oneTaskState]),
   (checkpoint_get_checkpoint _ "missing" _).2 (by simp [oneTaskState])⟩
